import Mathlib

/-!
Shallow embedding of the question-batch runner scripts of this repository:
`src/scripts/cot.py` (chained / feedback-loop runner) and `src/math/test.py`
(single-shot runner).  File systems, the HTTP endpoint and wall-clock time are
modelled as explicit oracle parameters; file writes and network requests are
modelled as traces.  Machine floats that are only carried along (temperature)
are kept as `Float`; floats that take part in arithmetic the claims talk about
(elapsed times) are modelled as `Rat`.
-/

/-- Python exception values the scripts raise or catch. -/
inductive PyExn where
  | fileNotFoundError (msg : String)
  | valueError (msg : String)
  | typeError (msg : String)
  | zeroDivisionError
  | indexError
  | connectionError
  | timeout (msg : String)
  | generic (msg : String)
deriving DecidableEq

/-- Python dynamic values appearing in the final summary computations. -/
inductive PyVal where
  | int (n : Int)
  | float (q : Rat)
  | str (s : String)
deriving DecidableEq

/-- Python binary `+` on the dynamic values above, as used by `sum(...)`. -/
def pyAdd : PyVal → PyVal → Except PyExn PyVal
  | .int a, .int b => .ok (.int (a + b))
  | .int a, .float b => .ok (.float ((a : Rat) + b))
  | .float a, .int b => .ok (.float (a + (b : Rat)))
  | .float a, .float b => .ok (.float (a + b))
  | .str a, .str b => .ok (.str (a ++ b))
  | .int _, .str _ =>
      .error (.typeError "unsupported operand type(s) for +: 'int' and 'str'")
  | .float _, .str _ =>
      .error (.typeError "unsupported operand type(s) for +: 'float' and 'str'")
  | .str _, .int _ =>
      .error (.typeError "can only concatenate str (not \"int\") to str")
  | .str _, .float _ =>
      .error (.typeError "can only concatenate str (not \"float\") to str")

/-- Python `/` of a dynamic value by an integer (the record count):
type errors are detected before the zero check, as in CPython. -/
def pyDiv (v : PyVal) (n : Int) : Except PyExn PyVal :=
  match v with
  | .str _ => .error (.typeError "unsupported operand type(s) for /: 'str' and 'int'")
  | .int a => if n = 0 then .error .zeroDivisionError else .ok (.float ((a : Rat) / (n : Rat)))
  | .float q => if n = 0 then .error .zeroDivisionError else .ok (.float (q / (n : Rat)))

/-- Python `xs[-1]`: last element, or `IndexError` on an empty list. -/
def pyLast (l : List String) : Except PyExn String :=
  match l.getLast? with
  | none => .error .indexError
  | some s => .ok s

/-- ASCII letters and digits, the character class `[a-zA-Z0-9]` of the
code-fence regex in `preprocess_markdown`. -/
def isAlnumAscii (c : Char) : Bool := c.isAlpha || c.isDigit

/-- The triple-backtick fence marker as a character list. -/
def fenceMark : List Char := "```".data

/-- Newline character used by the regex models. -/
def nlChar : Char := '\n'

/-- Scan for the lazy tail `\n` followed by three backticks (the pattern
suffix of the code-fence regex), returning the remainder after the match.
The lazy quantifier means the first such position is taken. -/
def findClose : List Char → Option (List Char)
  | [] => none
  | c :: cs =>
      if c = nlChar && cs.take 3 = fenceMark then some (cs.drop 3)
      else findClose cs

/-- Attempt to match the regex pattern of fenced code blocks at the head of
the input: three backticks, a (possibly empty) run of `[a-zA-Z0-9]`, a
newline, a lazy anything, a newline, three backticks.  Returns the rest of
the input after the match. -/
def matchFence (s : List Char) : Option (List Char) :=
  if s.take 3 = fenceMark then
    match (s.drop 3).dropWhile isAlnumAscii with
    | c :: u => if c = nlChar then findClose u else none
    | [] => none
  else none

/-- The left-to-right, non-overlapping substitution of fence matches by the
empty string, as performed by the first `re.sub` of `preprocess_markdown`.
Fuel-driven so that it evaluates by kernel reduction; a match always
consumes at least eight characters, so `fuel = length` is sufficient. -/
def stripFencesGo : Nat → List Char → List Char
  | 0, s => s
  | _ + 1, [] => []
  | fuel + 1, c :: cs =>
      match matchFence (c :: cs) with
      | some rest => stripFencesGo fuel rest
      | none => c :: stripFencesGo fuel cs

/-- Removal of fenced code blocks, `re.sub` with the triple-backtick
pattern and empty replacement. -/
def stripFences (s : List Char) : List Char := stripFencesGo s.length s

/-- Four leading spaces, the indented-code-block marker. -/
def indent4 : List Char := "    ".data

/-- Split a character list on newlines (`^`/`$` boundaries of a multiline
regex). -/
def splitLines : List Char → List (List Char)
  | [] => [[]]
  | c :: cs =>
      if c = nlChar then [] :: splitLines cs
      else
        match splitLines cs with
        | [] => [[c]]
        | l :: ls => (c :: l) :: ls

/-- Rejoin lines with newlines, inverse of `splitLines`. -/
def joinLines : List (List Char) → List Char
  | [] => []
  | [l] => l
  | l :: ls => l ++ nlChar :: joinLines ls

/-- The second `re.sub` of `preprocess_markdown`: in multiline mode, each
line beginning with four spaces is replaced by an empty line (the pattern
does not consume the newline). -/
def stripIndented (s : List Char) : List Char :=
  joinLines ((splitLines s).map (fun l => if l.take 4 = indent4 then [] else l))

/-- Scan for the first closing angle bracket, the greedy `[^>]*>` of the
HTML-tag regex. -/
def findGt : List Char → Option (List Char)
  | [] => none
  | c :: cs => if c = '>' then some cs else findGt cs

/-- Fuel-driven left-to-right substitution of HTML-tag matches (pattern
`<[^>]*>`) by the empty string. -/
def stripHtmlGo : Nat → List Char → List Char
  | 0, s => s
  | _ + 1, [] => []
  | fuel + 1, c :: cs =>
      if c = '<' then
        match findGt cs with
        | some rest => stripHtmlGo fuel rest
        | none => c :: stripHtmlGo fuel cs
      else c :: stripHtmlGo fuel cs

/-- Removal of HTML tags, `re.sub` with pattern `<[^>]*>`. -/
def stripHtmlTags (s : List Char) : List Char := stripHtmlGo s.length s

/-- Embeds `preprocess_markdown` (identical in both scripts): if neither
flag is set the text is returned unchanged; otherwise code fences and
indented code lines are stripped when requested, then HTML tags when
requested. -/
def preprocess_markdown (text : List Char) (strip_codeblocks : Bool) ( strip_html : Bool) :
    List Char :=
  if !strip_codeblocks && !strip_html then text
  else
    let t1 := if strip_codeblocks then stripIndented (stripFences text) else text
    if strip_html then stripHtmlTags t1 else t1

/-- Whether a triple-backtick fence delimiter occurs anywhere in the text. -/
def hasFence : List Char → Bool
  | [] => false
  | c :: cs => fenceMark.isPrefixOf (c :: cs) || hasFence cs

/-- Python `str.strip()`: remove leading and trailing whitespace. -/
def pyStrip (l : List Char) : List Char :=
  ((l.dropWhile Char.isWhitespace).reverse.dropWhile Char.isWhitespace).reverse

/-- Index of the last dot of a filename, if any. -/
def lastDotIdx (l : List Char) : Option Nat :=
  match l.reverse.findIdx? (fun c => c = '.') with
  | none => none
  | some j => some (l.length - 1 - j)

/-- Stem of `os.path.splitext` for a bare filename: split at the last dot,
except when every character before that dot is itself a dot (so `.txt`
has no extension), as in CPython. -/
def splitextStem (name : String) : String :=
  match lastDotIdx name.data with
  | none => name
  | some i =>
      if (name.data.take i).any (fun c => c ≠ '.') then String.mk (name.data.take i)
      else name

/-- File-extension filter of both loaders: `.txt` or `.md`. -/
def hasQuestionExt (name : String) : Bool :=
  ".txt".data.isSuffixOf name.data || ".md".data.isSuffixOf name.data

/-- The Question entity produced by the loaders. -/
structure Question where
  id : String
  text : String
  file : String
deriving DecidableEq

/-- Python string `<`: lexicographic comparison of code points. -/
def pyStrLtL : List Char → List Char → Bool
  | [], [] => false
  | [], _ :: _ => true
  | _ :: _, [] => false
  | a :: as, b :: bs => if a < b then true else if b < a then false else pyStrLtL as bs

/-- Python string `<=` on `String`. -/
def pyStrLe (s t : String) : Bool := !pyStrLtL t.data s.data

/-- Python `sorted` with a key function into strings: a stable sort by the
key under the lexicographic code-point order. -/
def pySortOn {α : Type} (key : α → String) (l : List α) : List α :=
  @List.insertionSort α (fun a b => pyStrLe (key a) (key b) = true)
    (fun a b => inferInstanceAs (Decidable (_ = true))) l

/-- Build one question record from a `(filename, file content)` pair:
the body is stripped, optionally preprocessed, and the identifier is the
filename stem. -/
def mkQuestion (preproc strip_codeblocks strip_html : Bool) (f : String × String) :
    Question :=
  let raw := pyStrip f.2.data
  let textL := if preproc then preprocess_markdown raw strip_codeblocks strip_html else raw
  { id := splitextStem f.1, text := String.mk textL, file := f.1 }

/-- Embeds `read_question_files` from `src/math/test.py`.  The directory is
an `Option`: `none` models a missing directory (raising
`FileNotFoundError`), `some files` models its listing in arbitrary
file-system order as `(name, content)` pairs.  Files are visited in sorted
name order, filtered by extension, and the result is returned in that
order; an empty result raises `ValueError`. -/
def read_question_files (listing : Option (List (String × String)))
    (preproc strip_codeblocks strip_html : Bool) : Except PyExn (List Question) :=
  match listing with
  | none => .error (.fileNotFoundError "Questions directory not found.")
  | some files =>
      let qs := ((pySortOn Prod.fst files).filter (fun f => hasQuestionExt f.1)).map
        (mkQuestion preproc strip_codeblocks strip_html)
      if qs.isEmpty then .error (.valueError "No .txt or .md files found")
      else .ok qs

/-- Embeds `read_questions` from `src/scripts/cot.py`: identical to
`read_question_files` except that the questions are finally re-sorted by
their identifier. -/
def read_questions (listing : Option (List (String × String)))
    (preproc strip_codeblocks strip_html : Bool) : Except PyExn (List Question) :=
  match listing with
  | none => .error (.fileNotFoundError "Questions directory not found.")
  | some files =>
      let qs := ((pySortOn Prod.fst files).filter (fun f => hasQuestionExt f.1)).map
        (mkQuestion preproc strip_codeblocks strip_html)
      if qs.isEmpty then .error (.valueError "No .txt or .md files found")
      else .ok (pySortOn Question.id qs)

/-- Command-line configuration shared by both scripts. -/
structure Config where
  model : String
  temperature : Float
  max_tokens : Nat
  system_prompt : String
  preproc : Bool
  strip_codeblocks : Bool
  strip_htmlFlag : Bool

/-- The JSON payload of one generation request. -/
structure Payload where
  model : String
  prompt : String
  temperature : Float
  max_tokens : Nat
  stream : Bool
  system : Option String

/-- Payload construction inside `query_ollama`: the `system` field is
added only when the system prompt is truthy, i.e. a non-empty string. -/
def buildPayload (model prompt system_prompt : String) (temperature : Float)
    (max_tokens : Nat) : Payload :=
  { model := model, prompt := prompt, temperature := temperature,
    max_tokens := max_tokens, stream := false,
    system := if system_prompt = "" then none else some system_prompt }

/-- Network trace of one `query_ollama` invocation: exactly the single
POST request it issues. -/
def querySends (model prompt system_prompt : String) (temperature : Float)
    (max_tokens : Nat) : List Payload :=
  [buildPayload model prompt system_prompt temperature max_tokens]

/-- Outcome of the one HTTP POST of `query_ollama`, as decided by the
environment: a 200 response (carrying the extracted `response` field, with
`''` as the `get` default), a non-200 status, a connection error, a
timeout, or any other exception. -/
inductive CallOutcome where
  | success (response : String)
  | badStatus (code : Nat) (text : String)
  | connError
  | timeoutExn (msg : String)
  | otherExn (msg : String)
deriving DecidableEq

/-- Body of the `try` block of `query_ollama`: the non-200 branch returns
an error string normally, while connection errors, timeouts and other
exceptions propagate as exceptions. -/
def queryBody (o : CallOutcome) : Except PyExn String :=
  match o with
  | .success r => .ok r
  | .badStatus code text =>
      .ok ("Error: Received status code " ++ toString code ++ ": " ++ text)
  | .connError => .error .connectionError
  | .timeoutExn m => .error (.timeout m)
  | .otherExn m => .error (.generic m)

/-- The `except` clauses of `query_ollama`: `ConnectionError` gets the
fixed message, every other exception is rendered as `Error: {str(e)}`.
Total over `PyExn`, so no exception reaches the caller. -/
def handleQueryExn : PyExn → String
  | .connectionError => "Error: Could not connect to Ollama. Make sure Ollama is running."
  | .timeout m => "Error: " ++ m
  | .generic m => "Error: " ++ m
  | .fileNotFoundError m => "Error: " ++ m
  | .valueError m => "Error: " ++ m
  | .typeError m => "Error: " ++ m
  | .zeroDivisionError => "Error: division by zero"
  | .indexError => "Error: list index out of range"

/-- Embeds `query_ollama` (identical in both scripts): issue one request
and convert every failure into an error string. -/
def query_ollama (model prompt system_prompt : String) (temperature : Float)
    (max_tokens : Nat) (o : CallOutcome) : String :=
  match queryBody o with
  | .ok s => s
  | .error e => handleQueryExn e

/-- Result Record of the single-shot runner. -/
structure ResultRecord where
  question_id : String
  question_text : String
  response : String
  processing_time_seconds : Rat
  model : String
  temperature : Float
  max_tokens : Nat
  system_prompt : Option String

/-- Python `round(x, 2)` on the elapsed time, modelled on rationals. -/
def round2 (q : Rat) : Rat := (round (q * 100) : ℤ) / 100

/-- Build the result dict of one single-shot question.  `outcome i` is the
environment's answer to the `i`-th request, `elapsed i` the wall-clock
duration the `i`-th call took. -/
def mkResultRecord (cfg : Config) (outcome : Nat → CallOutcome) (elapsed : Nat → Rat)
    (i : Nat) (q : Question) : ResultRecord :=
  { question_id := q.id, question_text := q.text,
    response := query_ollama cfg.model q.text cfg.system_prompt cfg.temperature
      cfg.max_tokens (outcome i),
    processing_time_seconds := round2 (elapsed i),
    model := cfg.model, temperature := cfg.temperature, max_tokens := cfg.max_tokens,
    system_prompt := if cfg.system_prompt = "" then none else some cfg.system_prompt }

/-- Map with the running index, as produced by `enumerate`. -/
def mapIdxFrom {α β : Type} (f : Nat → α → β) : Nat → List α → List β
  | _, [] => []
  | i, a :: as => f i a :: mapIdxFrom f (i + 1) as

/-- Records plus the trace of output record files written by a run
(one per question, then the aggregate). -/
structure SingleRun where
  records : List ResultRecord
  filesWritten : List String

/-- Embeds `run_test` from `src/math/test.py` (the creation of the output
directory is not a record file and is left implicit). -/
def run_test (cfg : Config) (listing : Option (List (String × String)))
    (outcome : Nat → CallOutcome) (elapsed : Nat → Rat) : Except PyExn SingleRun :=
  match read_question_files listing cfg.preproc cfg.strip_codeblocks cfg.strip_htmlFlag with
  | .error e => .error e
  | .ok qs =>
      let records := mapIdxFrom (mkResultRecord cfg outcome elapsed) 0 qs
      .ok { records := records,
            filesWritten :=
              records.map (fun r => r.question_id ++ "_result.json") ++ ["all_results.json"] }

/-- Iteration Record of the chained runner. -/
structure IterationRecord where
  question_id : String
  question_text : String
  responses : List String
  model : String
  temperature : Float
  max_tokens : Nat
  system_prompt : Option String

/-- The feedback loop of `run_iterations`: starting from `x` at call
counter `k`, apply the step `n` times, keeping every intermediate value.
The head of the result is `x` and each following element is the step
applied to its predecessor. -/
def chainFrom {α : Type} (step : Nat → α → α) : Nat → α → Nat → List α
  | _, x, 0 => [x]
  | k, x, n + 1 => x :: chainFrom step (k + 1) (step k x) n

/-- One inference call of the chained loop at global call counter `k`. -/
def queryStep (cfg : Config) (outcome : Nat → CallOutcome) (k : Nat)
    (prompt : String) : String :=
  query_ollama cfg.model prompt cfg.system_prompt cfg.temperature cfg.max_tokens (outcome k)

/-- The `iteration_responses` list of `run_iterations`: the question text
followed by five chained completions; calls of question `i` use the global
call counters `base = 5 * i`, …, `base + 4`. -/
def iterationResponses (cfg : Config) (outcome : Nat → CallOutcome) (base : Nat)
    (qtext : String) : List String :=
  chainFrom (queryStep cfg outcome) base qtext 5

/-- Build the result dict of one chained question. -/
def mkIterationRecord (cfg : Config) (outcome : Nat → CallOutcome) (i : Nat)
    (q : Question) : IterationRecord :=
  { question_id := q.id, question_text := q.text,
    responses := iterationResponses cfg outcome (5 * i) q.text,
    model := cfg.model, temperature := cfg.temperature, max_tokens := cfg.max_tokens,
    system_prompt := if cfg.system_prompt = "" then none else some cfg.system_prompt }

/-- Records plus the written-files trace of a chained run. -/
structure ChainedRun where
  records : List IterationRecord
  filesWritten : List String

/-- Embeds `run_iterations` from `src/scripts/cot.py`. -/
def run_iterations (cfg : Config) (listing : Option (List (String × String)))
    (outcome : Nat → CallOutcome) : Except PyExn ChainedRun :=
  match read_questions listing cfg.preproc cfg.strip_codeblocks cfg.strip_htmlFlag with
  | .error e => .error e
  | .ok qs =>
      let records := mapIdxFrom (mkIterationRecord cfg outcome) 0 qs
      .ok { records := records,
            filesWritten :=
              records.map (fun r => r.question_id ++ "_result.json") ++ ["all_results.json"] }

/-- The average-response-time line of the single-shot `__main__`:
`sum(r['processing_time_seconds'] for r in results) / len(results)`. -/
def singleAvg (records : List ResultRecord) : Except PyExn Rat :=
  if records.length = 0 then .error .zeroDivisionError
  else .ok ((records.map (fun r => r.processing_time_seconds)).sum / (records.length : Rat))

/-- The average-response-time line of the chained `__main__`:
`sum(r['responses'][-1] for r in results) / len(results)`, summing the
last response strings from an integer start value. -/
def chainedAvg (records : List IterationRecord) : Except PyExn PyVal := do
  let s ← records.foldlM
    (fun acc r => do pyAdd acc (.str (← pyLast r.responses))) (PyVal.int 0)
  pyDiv s records.length

/-- Observable outcome of a whole script invocation: the record files
written, the error message printed by the top-level `except Exception`
handler (if any), the reported average (if reached), and the process exit
status.  The handler only prints, so the interpreter always terminates
normally with status 0. -/
structure MainResult (β : Type) where
  filesWritten : List String
  errorReported : Option PyExn
  avgReported : Option β
  exitCode : Nat

/-- Embeds the `__main__` block of `src/math/test.py` (the advisory
`check_model_availability` call only prints and never raises, so it is
omitted from the model). -/
def mainSingleShot (cfg : Config) (listing : Option (List (String × String)))
    (outcome : Nat → CallOutcome) (elapsed : Nat → Rat) : MainResult Rat :=
  match run_test cfg listing outcome elapsed with
  | .error e =>
      { filesWritten := [], errorReported := some e, avgReported := none, exitCode := 0 }
  | .ok run =>
      match singleAvg run.records with
      | .error e =>
          { filesWritten := run.filesWritten, errorReported := some e,
            avgReported := none, exitCode := 0 }
      | .ok v =>
          { filesWritten := run.filesWritten, errorReported := none,
            avgReported := some v, exitCode := 0 }

/-- Embeds the `__main__` block of `src/scripts/cot.py`. -/
def mainChained (cfg : Config) (listing : Option (List (String × String)))
    (outcome : Nat → CallOutcome) : MainResult PyVal :=
  match run_iterations cfg listing outcome with
  | .error e =>
      { filesWritten := [], errorReported := some e, avgReported := none, exitCode := 0 }
  | .ok run =>
      match chainedAvg run.records with
      | .error e =>
          { filesWritten := run.filesWritten, errorReported := some e,
            avgReported := none, exitCode := 0 }
      | .ok v =>
          { filesWritten := run.filesWritten, errorReported := none,
            avgReported := some v, exitCode := 0 }

/-- Decidable check that a question list is sorted by identifier. -/
def idsSortedLe : List Question → Bool
  | [] => true
  | [_] => true
  | a :: b :: rest => pyStrLe a.id b.id && idsSortedLe (b :: rest)

/-- Decidable check that the identifiers of a question list are pairwise
distinct. -/
def idsUnique (qs : List Question) : Bool := decide (qs.map Question.id).Nodup

/-- Whether a reported error is a division by zero. -/
def isZeroDivOpt : Option PyExn → Bool
  | some .zeroDivisionError => true
  | _ => false


/-! Order-theoretic facts about the Python string comparison. -/

/-- Strict code-point comparison is asymmetric. -/
theorem pyStrLtL_asymm : ∀ {s t : List Char},
    pyStrLtL s t = true → pyStrLtL t s = true → False
  | [], [], h, _ => by simp [pyStrLtL] at h
  | [], _ :: _, _, h' => by simp [pyStrLtL] at h'
  | _ :: _, [], h, _ => by simp [pyStrLtL] at h
  | a :: as, b :: bs, h, h' => by
      simp only [pyStrLtL] at h h'
      by_cases hab : a < b
      · have hba : ¬b < a := lt_asymm hab
        simp [hab, hba] at h'
      · by_cases hba : b < a
        · simp [hab, hba] at h
        · simp only [if_neg hab, if_neg hba] at h h'
          exact pyStrLtL_asymm h h'

/-- Strict code-point comparison is transitive. -/
theorem pyStrLtL_trans : ∀ {s t u : List Char},
    pyStrLtL s t = true → pyStrLtL t u = true → pyStrLtL s u = true
  | [], [], _, h, h' => by simp [pyStrLtL] at h
  | _ :: _, [], _, h, h' => by simp [pyStrLtL] at h
  | _, _ :: _, [], h, h' => by simp [pyStrLtL] at h'
  | [], b :: bs, c :: cs, h, h' => by simp [pyStrLtL]
  | a :: as, b :: bs, c :: cs, h, h' => by
      simp only [pyStrLtL] at h h' ⊢
      by_cases hab : a < b
      · by_cases hbc : b < c
        · simp [lt_trans hab hbc]
        · by_cases hcb : c < b
          · simp [hbc, hcb] at h'
          · have hbceq : b = c := le_antisymm (not_lt.mp hcb) (not_lt.mp hbc)
            simp [hbceq ▸ hab]
      · by_cases hba : b < a
        · simp [hab, hba] at h
        · have habeq : a = b := le_antisymm (not_lt.mp hba) (not_lt.mp hab)
          simp only [if_neg hab, if_neg hba] at h
          by_cases hbc : b < c
          · simp [habeq ▸ hbc]
          · by_cases hcb : c < b
            · simp [hbc, hcb] at h'
            · simp only [if_neg hbc, if_neg hcb] at h'
              have hac : ¬a < c := habeq ▸ hbc
              have hca : ¬c < a := habeq ▸ hcb
              simp only [if_neg hac, if_neg hca]
              exact pyStrLtL_trans h h'

/-- Two lists that are strictly below each other in neither direction are
equal. -/
theorem pyStrLtL_eq_of_not : ∀ (s t : List Char),
    pyStrLtL s t = false → pyStrLtL t s = false → s = t
  | [], [], _, _ => rfl
  | [], _ :: _, h, _ => by simp [pyStrLtL] at h
  | _ :: _, [], _, h' => by simp [pyStrLtL] at h'
  | a :: as, b :: bs, h, h' => by
      simp only [pyStrLtL] at h h'
      by_cases hab : a < b
      · simp [hab] at h
      · by_cases hba : b < a
        · simp [hab, hba] at h'
        · have heq : a = b := le_antisymm (not_lt.mp hba) (not_lt.mp hab)
          simp only [if_neg hab, if_neg hba] at h h'
          rw [heq, pyStrLtL_eq_of_not as bs h h']

/-- Strings with equal character data are equal. -/
theorem stringDataEq : ∀ {s t : String}, s.data = t.data → s = t
  | ⟨_⟩, ⟨_⟩, h => congrArg String.mk h

/-- The Python string order is total. -/
theorem pyStrLe_total (s t : String) : pyStrLe s t = true ∨ pyStrLe t s = true := by
  unfold pyStrLe
  cases h : pyStrLtL t.data s.data
  · simp
  · cases h' : pyStrLtL s.data t.data
    · simp
    · exact (pyStrLtL_asymm h' h).elim

/-- The Python string order is transitive. -/
theorem pyStrLe_trans {s t u : String} (h1 : pyStrLe s t = true)
    (h2 : pyStrLe t u = true) : pyStrLe s u = true := by
  unfold pyStrLe at h1 h2 ⊢
  rw [Bool.not_eq_true'] at h1 h2 ⊢
  cases hus : pyStrLtL u.data s.data
  · rfl
  · cases hst : pyStrLtL s.data t.data
    · have hdata : s.data = t.data := pyStrLtL_eq_of_not _ _ hst h1
      rw [hdata] at hus
      rw [hus] at h2
      cases h2
    · have := pyStrLtL_trans hus hst
      rw [this] at h2
      cases h2

/-- The Python string order is antisymmetric. -/
theorem pyStrLe_antisymm {s t : String} (h1 : pyStrLe s t = true)
    (h2 : pyStrLe t s = true) : s = t := by
  unfold pyStrLe at h1 h2
  rw [Bool.not_eq_true'] at h1 h2
  exact stringDataEq (pyStrLtL_eq_of_not _ _ h2 h1)

/-- Sorting is a permutation of the input. -/
theorem pySortOn_perm {α : Type} (key : α → String) (l : List α) :
    (pySortOn key l).Perm l :=
  List.perm_insertionSort _ l

/-- The sorted list is sorted by its key. -/
theorem pySortOn_sorted {α : Type} (key : α → String) (l : List α) :
    List.Sorted (fun a b => pyStrLe (key a) (key b) = true) (pySortOn key l) := by
  haveI : IsTotal α (fun a b => pyStrLe (key a) (key b) = true) :=
    ⟨fun a b => pyStrLe_total (key a) (key b)⟩
  haveI : IsTrans α (fun a b => pyStrLe (key a) (key b) = true) :=
    ⟨fun _ _ _ h1 h2 => pyStrLe_trans h1 h2⟩
  exact List.sorted_insertionSort _ l

/-- With pairwise-distinct keys the sorted list is strictly sorted. -/
theorem pySortOn_sorted_strict {α : Type} (key : α → String) (l : List α)
    (hn : (l.map key).Nodup) :
    List.Sorted (fun a b => pyStrLtL (key a).data (key b).data = true) (pySortOn key l) := by
  have hs := pySortOn_sorted key l
  have hn' : ((pySortOn key l).map key).Nodup :=
    (((pySortOn_perm key l).map key).nodup_iff).mpr hn
  have hne : (pySortOn key l).Pairwise (fun a b => key a ≠ key b) :=
    List.pairwise_map.mp hn'
  refine (hs.and hne).imp ?_
  rintro a b ⟨hle, hneq⟩
  unfold pyStrLe at hle
  rw [Bool.not_eq_true'] at hle
  cases hab : pyStrLtL (key a).data (key b).data
  · exact absurd (stringDataEq (pyStrLtL_eq_of_not _ _ hab hle)) hneq
  · rfl

/-- Sorting by key is invariant under permutations of the input when the
keys are pairwise distinct. -/
theorem pySortOn_eq_of_perm {α : Type} (key : α → String) {l₁ l₂ : List α}
    (hp : l₁.Perm l₂) (hn : (l₁.map key).Nodup) :
    pySortOn key l₁ = pySortOn key l₂ := by
  haveI : IsAntisymm α (fun a b => pyStrLtL (key a).data (key b).data = true) :=
    ⟨fun a b h1 h2 => (pyStrLtL_asymm h1 h2).elim⟩
  have hperm : (pySortOn key l₁).Perm (pySortOn key l₂) :=
    (pySortOn_perm key l₁).trans (hp.trans (pySortOn_perm key l₂).symm)
  have hn₂ : (l₂.map key).Nodup := ((hp.map key).nodup_iff).mp hn
  exact List.eq_of_perm_of_sorted hperm
    (pySortOn_sorted_strict key l₁ hn) (pySortOn_sorted_strict key l₂ hn₂)

/-! Loader facts. -/

/-- Characterization of a successful single-shot load. -/
theorem read_question_files_ok {files : List (String × String)} {p sc sh : Bool}
    {qs : List Question}
    (h : read_question_files (some files) p sc sh = .ok qs) :
    qs = ((pySortOn Prod.fst files).filter (fun f => hasQuestionExt f.1)).map
        (mkQuestion p sc sh) ∧ qs ≠ [] := by
  simp only [read_question_files] at h
  split at h
  · cases h
  · next hne =>
    cases h
    refine ⟨rfl, fun hnil => ?_⟩
    rw [hnil] at hne
    simp at hne

/-- Characterization of a successful chained-mode load. -/
theorem read_questions_ok {files : List (String × String)} {p sc sh : Bool}
    {qs : List Question}
    (h : read_questions (some files) p sc sh = .ok qs) :
    qs = pySortOn Question.id
        (((pySortOn Prod.fst files).filter (fun f => hasQuestionExt f.1)).map
          (mkQuestion p sc sh)) ∧ qs ≠ [] := by
  simp only [read_questions] at h
  split at h
  · cases h
  · next hne =>
    cases h
    refine ⟨rfl, fun hnil => ?_⟩
    have hlen := (pySortOn_perm Question.id
      (((pySortOn Prod.fst files).filter (fun f => hasQuestionExt f.1)).map
        (mkQuestion p sc sh))).length_eq
    rw [hnil] at hlen
    have hmt : (((pySortOn Prod.fst files).filter (fun f => hasQuestionExt f.1)).map
        (mkQuestion p sc sh)) = [] := List.length_eq_zero.mp (by simpa using hlen.symm)
    rw [hmt] at hne
    simp at hne

/-- C2 (amended): for every existing input directory, both loaders return
exactly one Question per file with a recognized extension, and the result
does not depend on the file-system iteration order (for directories, whose
filenames are pairwise distinct); the chained-mode loader returns them
sorted by identifier, while the single-shot loader returns them sorted by
filename, which need not coincide with identifier order. -/
theorem C2_loader_count_order (files₁ files₂ : List (String × String)) (p sc sh : Bool)
    (hp : files₁.Perm files₂) (hn : (files₁.map Prod.fst).Nodup) :
    (read_question_files (some files₁) p sc sh = read_question_files (some files₂) p sc sh
      ∧ read_questions (some files₁) p sc sh = read_questions (some files₂) p sc sh)
    ∧ (∀ qs, read_question_files (some files₁) p sc sh = .ok qs →
        qs.length = (files₁.filter (fun f => hasQuestionExt f.1)).length
          ∧ List.Sorted (fun a b => pyStrLe a.file b.file = true) qs)
    ∧ (∀ qs, read_questions (some files₁) p sc sh = .ok qs →
        qs.length = (files₁.filter (fun f => hasQuestionExt f.1)).length
          ∧ List.Sorted (fun a b => pyStrLe a.id b.id = true) qs) := by
  have hsort : pySortOn Prod.fst files₁ = pySortOn Prod.fst files₂ :=
    pySortOn_eq_of_perm Prod.fst hp hn
  refine ⟨⟨?_, ?_⟩, ?_, ?_⟩
  · simp only [read_question_files, hsort]
  · simp only [read_questions, hsort]
  · intro qs h
    obtain ⟨hqs, -⟩ := read_question_files_ok h
    subst hqs
    constructor
    · rw [List.length_map]
      exact (((pySortOn_perm Prod.fst files₁).filter _)).length_eq
    · have hsorted := pySortOn_sorted Prod.fst files₁
      have hfil : List.Pairwise (fun a b => pyStrLe a.1 b.1 = true)
          ((pySortOn Prod.fst files₁).filter (fun f => hasQuestionExt f.1)) :=
        hsorted.sublist ((pySortOn Prod.fst files₁).filter_sublist)
      exact List.pairwise_map.mpr (hfil.imp (fun h => h))
  · intro qs h
    obtain ⟨hqs, -⟩ := read_questions_ok h
    subst hqs
    constructor
    · rw [(pySortOn_perm Question.id _).length_eq, List.length_map]
      exact (((pySortOn_perm Prod.fst files₁).filter _)).length_eq
    · exact pySortOn_sorted Question.id _

/-- C2 witness: two iteration orders of the same two-file directory load
identically, and the chained-mode loader output is sorted by identifier. -/
theorem C2_loader_count_order_witness :
    (read_question_files (some [("b.txt", "x"), ("a.txt", "y")]) false false false
      = read_question_files (some [("a.txt", "y"), ("b.txt", "x")]) false false false)
    ∧ (∀ qs, read_questions (some [("b.txt", "x"), ("a.txt", "y")]) false false false = .ok qs →
        qs.length = ([("b.txt", "x"), ("a.txt", "y")].filter
            (fun f => hasQuestionExt f.1)).length
          ∧ List.Sorted (fun a b => pyStrLe a.id b.id = true) qs) :=
  ⟨(C2_loader_count_order [("b.txt", "x"), ("a.txt", "y")] [("a.txt", "y"), ("b.txt", "x")]
      false false false (by decide) (by decide)).1.1,
   (C2_loader_count_order [("b.txt", "x"), ("a.txt", "y")] [("a.txt", "y"), ("b.txt", "x")]
      false false false (by decide) (by decide)).2.2⟩

/-- C2 counterexample: the single-shot loader visits files in filename
order and never re-sorts by identifier, so with files `b.md` and
`b-x.txt` (filename order puts `b-x.txt` first, identifier order puts `b`
first) its output is not sorted by identifier. -/
theorem C2_single_shot_not_sorted_by_id :
    (match read_question_files (some [("b.md", "q1"), ("b-x.txt", "q2")]) false false false with
      | .ok qs => idsSortedLe qs
      | .error _ => true) = false := by decide

/-- C3 (amended): record identifiers within a run are pairwise distinct
provided the stems of the matching filenames are pairwise distinct; two
distinct files whose names differ only in the recognized extension (for
example `a.txt` and `a.md`) yield the same identifier. -/
theorem C3_ids_unique_of_distinct_stems (files : List (String × String)) (p sc sh : Bool)
    (hstems : ((files.filter (fun f => hasQuestionExt f.1)).map
        (fun f => splitextStem f.1)).Nodup) :
    (∀ qs, read_question_files (some files) p sc sh = .ok qs → (qs.map Question.id).Nodup)
    ∧ (∀ qs, read_questions (some files) p sc sh = .ok qs → (qs.map Question.id).Nodup) := by
  have hperm : (((pySortOn Prod.fst files).filter (fun f => hasQuestionExt f.1))).Perm
      (files.filter (fun f => hasQuestionExt f.1)) :=
    (pySortOn_perm Prod.fst files).filter _
  have h1 : (((pySortOn Prod.fst files).filter (fun f => hasQuestionExt f.1)).map
      (fun f => splitextStem f.1)).Nodup :=
    ((hperm.map _).nodup_iff).mpr hstems
  constructor
  · intro qs h
    obtain ⟨hqs, -⟩ := read_question_files_ok h
    subst hqs
    rw [List.map_map]
    exact h1
  · intro qs h
    obtain ⟨hqs, -⟩ := read_questions_ok h
    subst hqs
    have hpm : ((pySortOn Question.id
        (((pySortOn Prod.fst files).filter (fun f => hasQuestionExt f.1)).map
          (mkQuestion p sc sh))).map Question.id).Perm
        ((((pySortOn Prod.fst files).filter (fun f => hasQuestionExt f.1)).map
          (mkQuestion p sc sh)).map Question.id) :=
      (pySortOn_perm Question.id _).map _
    rw [hpm.nodup_iff, List.map_map]
    exact h1

/-- C3 witness: in a directory with distinct stems the identifiers are
unique for both loaders. -/
theorem C3_ids_unique_of_distinct_stems_witness :
    (∀ qs, read_question_files (some [("a.txt", "x"), ("b.md", "y")]) false false false
        = .ok qs → (qs.map Question.id).Nodup)
    ∧ (∀ qs, read_questions (some [("a.txt", "x"), ("b.md", "y")]) false false false
        = .ok qs → (qs.map Question.id).Nodup) :=
  C3_ids_unique_of_distinct_stems [("a.txt", "x"), ("b.md", "y")] false false false (by decide)

/-- C3 counterexample: the files `a.md` and `a.txt` are distinct matching
files but both yield identifier `a`, so identifiers are not unique within
the run, in either loader. -/
theorem C3_duplicate_stem_ids :
    (match read_questions (some [("a.md", "x"), ("a.txt", "y")]) false false false with
      | .ok qs => idsUnique qs
      | .error _ => true) = false
    ∧ (match read_question_files (some [("a.md", "x"), ("a.txt", "y")]) false false false with
      | .ok qs => idsUnique qs
      | .error _ => true) = false := ⟨by decide, by decide⟩

/-! Facts about the index-threading map and the feedback chain. -/

theorem mapIdxFrom_length {α β : Type} (f : Nat → α → β) : ∀ (b : Nat) (l : List α),
    (mapIdxFrom f b l).length = l.length
  | _, [] => rfl
  | b, _ :: as => by simp [mapIdxFrom, mapIdxFrom_length f (b + 1) as]

theorem mapIdxFrom_getElem? {α β : Type} (f : Nat → α → β) :
    ∀ (b : Nat) (l : List α) (i : Nat),
      (mapIdxFrom f b l)[i]? = (l[i]?).map (f (b + i))
  | _, [], i => by simp [mapIdxFrom]
  | b, a :: as, 0 => by simp [mapIdxFrom]
  | b, a :: as, i + 1 => by
      simp only [mapIdxFrom, List.getElem?_cons_succ]
      rw [mapIdxFrom_getElem? f (b + 1) as i]
      have harith : b + 1 + i = b + (i + 1) := by omega
      rw [harith]

theorem mapIdxFrom_forall {α β : Type} {P : β → Prop} (f : Nat → α → β)
    (h : ∀ i a, P (f i a)) :
    ∀ (b : Nat) (l : List α), ∀ r ∈ mapIdxFrom f b l, P r
  | _, [], r, hr => by simp [mapIdxFrom] at hr
  | b, a :: as, r, hr => by
      simp only [mapIdxFrom, List.mem_cons] at hr
      rcases hr with rfl | hr
      · exact h b a
      · exact mapIdxFrom_forall f h (b + 1) as r hr

theorem mapIdxFrom_map_indep {α β γ : Type} (f : Nat → α → β) (g : β → γ) (h : α → γ)
    (hgf : ∀ i a, g (f i a) = h a) : ∀ (b : Nat) (l : List α),
    (mapIdxFrom f b l).map g = l.map h
  | _, [] => rfl
  | b, a :: as => by
      simp [mapIdxFrom, hgf, mapIdxFrom_map_indep f g h hgf (b + 1) as]

theorem chainFrom_length {α : Type} (step : Nat → α → α) : ∀ (k : Nat) (x : α) (n : Nat),
    (chainFrom step k x n).length = n + 1
  | _, _, 0 => rfl
  | k, x, n + 1 => by simp [chainFrom, chainFrom_length step (k + 1) (step k x) n]

theorem chainFrom_head {α : Type} (step : Nat → α → α) (k : Nat) (x : α) (n : Nat) :
    (chainFrom step k x n)[0]? = some x := by
  cases n <;> simp [chainFrom]

theorem chainFrom_step_get {α : Type} (step : Nat → α → α) :
    ∀ (n k : Nat) (x : α) (j : Nat) (p : α), j < n →
      (chainFrom step k x n)[j]? = some p →
      (chainFrom step k x n)[j + 1]? = some (step (k + j) p)
  | 0, _, _, j, _, hj, _ => absurd hj (Nat.not_lt_zero j)
  | n + 1, k, x, 0, p, _, hp => by
      simp only [chainFrom, List.getElem?_cons_zero, Option.some.injEq] at hp
      subst hp
      simp only [chainFrom, List.getElem?_cons_succ]
      rw [chainFrom_head]
      simp
  | n + 1, k, x, j + 1, p, hj, hp => by
      simp only [chainFrom, List.getElem?_cons_succ] at hp ⊢
      have hstep := chainFrom_step_get step n (k + 1) (step k x) j p
        (Nat.lt_of_succ_lt_succ hj) hp
      have harith : k + 1 + j = k + (j + 1) := by omega
      rw [harith] at hstep
      exact hstep

/-- Failure modes of the loaders: only the two setup errors can occur. -/
theorem read_question_files_error_shape {listing : Option (List (String × String))}
    {p sc sh : Bool} {e : PyExn}
    (h : read_question_files listing p sc sh = .error e) :
    e = .fileNotFoundError "Questions directory not found."
    ∨ e = .valueError "No .txt or .md files found" := by
  cases listing with
  | none =>
      simp only [read_question_files] at h
      cases h
      left
      rfl
  | some files =>
      simp only [read_question_files] at h
      split at h
      · cases h
        right
        rfl
      · cases h

/-- C4: the Inference Client issues exactly one request per invocation (no
retries), and on a connection error, timeout, any other exception, or a
non-success status it returns a descriptive error string to its caller
rather than raising; a 200 response returns the extracted completion. -/
theorem C4_client_soft_failure (model prompt sysp : String) (temperature : Float)
    (max_tokens : Nat) (o : CallOutcome) :
    (querySends model prompt sysp temperature max_tokens).length = 1
    ∧ (o = .connError → query_ollama model prompt sysp temperature max_tokens o =
        "Error: Could not connect to Ollama. Make sure Ollama is running.")
    ∧ (∀ m, o = .timeoutExn m →
        query_ollama model prompt sysp temperature max_tokens o = "Error: " ++ m)
    ∧ (∀ m, o = .otherExn m →
        query_ollama model prompt sysp temperature max_tokens o = "Error: " ++ m)
    ∧ (∀ code text, o = .badStatus code text →
        query_ollama model prompt sysp temperature max_tokens o =
          "Error: Received status code " ++ toString code ++ ": " ++ text)
    ∧ (∀ r, o = .success r →
        query_ollama model prompt sysp temperature max_tokens o = r) := by
  refine ⟨rfl, ?_, ?_, ?_, ?_, ?_⟩
  · rintro rfl; rfl
  · rintro m rfl; rfl
  · rintro m rfl; rfl
  · rintro code text rfl; rfl
  · rintro r rfl; rfl

/-- C4 witness: concrete failing calls return the documented error
strings. -/
theorem C4_client_soft_failure_witness :
    query_ollama "llama3.2" "p" "" 0.7 1000 .connError =
      "Error: Could not connect to Ollama. Make sure Ollama is running."
    ∧ query_ollama "llama3.2" "p" "" 0.7 1000 (.timeoutExn "timed out") = "Error: timed out"
    ∧ (querySends "llama3.2" "p" "" 0.7 1000).length = 1 :=
  ⟨(C4_client_soft_failure "llama3.2" "p" "" 0.7 1000 .connError).2.1 rfl,
   (C4_client_soft_failure "llama3.2" "p" "" 0.7 1000 (.timeoutExn "timed out")).2.2.1
     "timed out" rfl,
   (C4_client_soft_failure "llama3.2" "p" "" 0.7 1000 .connError).1⟩

/-- C6 (amended): with a missing input directory both runners abort before
any output record file is written (no per-question result, no aggregate)
and the error is reported to the operator, but the top-level handler
catches the exception and the process then exits normally with status 0,
not abnormally. -/
theorem C6_missing_dir_no_outputs_normal_exit (cfg : Config) (outcome : Nat → CallOutcome)
    (elapsed : Nat → Rat) :
    (mainSingleShot cfg none outcome elapsed).filesWritten = []
    ∧ (mainSingleShot cfg none outcome elapsed).errorReported =
        some (.fileNotFoundError "Questions directory not found.")
    ∧ (mainSingleShot cfg none outcome elapsed).avgReported = none
    ∧ (mainSingleShot cfg none outcome elapsed).exitCode = 0
    ∧ (mainChained cfg none outcome).filesWritten = []
    ∧ (mainChained cfg none outcome).errorReported =
        some (.fileNotFoundError "Questions directory not found.")
    ∧ (mainChained cfg none outcome).exitCode = 0 :=
  ⟨rfl, rfl, rfl, rfl, rfl, rfl, rfl⟩

/-- C6 counterexample: at a concrete configuration with a missing input
directory the process exit status is 0 (a normal exit), contradicting the
claimed abnormal exit; no record file is written and the error is
reported. -/
theorem C6_missing_dir_exit_code_zero :
    (mainSingleShot ⟨"llama3.2", 0.7, 1000, "", false, false, false⟩ none
        (fun _ => .connError) (fun _ => 0)).exitCode = 0
    ∧ (mainSingleShot ⟨"llama3.2", 0.7, 1000, "", false, false, false⟩ none
        (fun _ => .connError) (fun _ => 0)).errorReported =
        some (.fileNotFoundError "Questions directory not found.")
    ∧ (mainSingleShot ⟨"llama3.2", 0.7, 1000, "", false, false, false⟩ none
        (fun _ => .connError) (fun _ => 0)).filesWritten = [] :=
  ⟨rfl, rfl, rfl⟩

/-- C7 (corrected): the single-shot runner does report a mean elapsed time
after all questions, but a division by zero is never observable: an empty
question set makes the loader raise `ValueError` before any record exists,
so the run aborts during loading and the averaging line is never reached
with zero records. -/
theorem C7_no_zero_division_in_single_shot (cfg : Config)
    (listing : Option (List (String × String))) (outcome : Nat → CallOutcome)
    (elapsed : Nat → Rat) :
    isZeroDivOpt (mainSingleShot cfg listing outcome elapsed).errorReported = false
    ∧ (mainSingleShot cfg (some []) outcome elapsed).errorReported =
        some (.valueError "No .txt or .md files found")
    ∧ (mainSingleShot cfg (some []) outcome elapsed).avgReported = none := by
  refine ⟨?_, rfl, rfl⟩
  cases hrt : run_test cfg listing outcome elapsed with
  | error e =>
      have he : read_question_files listing cfg.preproc cfg.strip_codeblocks
          cfg.strip_htmlFlag = .error e := by
        simp only [run_test] at hrt
        cases hload : read_question_files listing cfg.preproc cfg.strip_codeblocks
            cfg.strip_htmlFlag with
        | error e' =>
            rw [hload] at hrt
            cases hrt
            rfl
        | ok qs =>
            rw [hload] at hrt
            cases hrt
      rcases read_question_files_error_shape he with h | h <;> subst h <;>
        simp [mainSingleShot, hrt, isZeroDivOpt]
  | ok run =>
      have hqs : ∃ qs, read_question_files listing cfg.preproc cfg.strip_codeblocks
          cfg.strip_htmlFlag = .ok qs
          ∧ run.records = mapIdxFrom (mkResultRecord cfg outcome elapsed) 0 qs := by
        simp only [run_test] at hrt
        cases hload : read_question_files listing cfg.preproc cfg.strip_codeblocks
            cfg.strip_htmlFlag with
        | error e =>
            rw [hload] at hrt
            cases hrt
        | ok qs =>
            rw [hload] at hrt
            cases hrt
            exact ⟨qs, rfl, rfl⟩
      obtain ⟨qs, hload, hrec⟩ := hqs
      have hne : qs ≠ [] := by
        cases listing with
        | none => simp [read_question_files] at hload
        | some files => exact (read_question_files_ok hload).2
      have hlen : run.records.length ≠ 0 := by
        rw [hrec, mapIdxFrom_length]
        exact fun h0 => hne (List.length_eq_zero.mp h0)
      have havg : ∃ v, singleAvg run.records = .ok v := by
        simp only [singleAvg, if_neg hlen]
        exact ⟨_, rfl⟩
      obtain ⟨v, havg⟩ := havg
      simp [mainSingleShot, hrt, havg, isZeroDivOpt]

/-- C7 counterexample: with an existing but empty input directory the run
fails with the loader's `ValueError`, not with a division by zero, and no
average is computed; the claimed division-by-zero failure on an empty
question set is unreachable. -/
theorem C7_empty_set_aborts_before_average :
    (mainSingleShot ⟨"llama3.2", 0.7, 1000, "", false, false, false⟩ (some [])
        (fun _ => .connError) (fun _ => 0)).errorReported =
      some (.valueError "No .txt or .md files found")
    ∧ isZeroDivOpt (mainSingleShot ⟨"llama3.2", 0.7, 1000, "", false, false, false⟩
        (some []) (fun _ => .connError) (fun _ => 0)).errorReported = false
    ∧ (mainSingleShot ⟨"llama3.2", 0.7, 1000, "", false, false, false⟩ (some [])
        (fun _ => .connError) (fun _ => 0)).avgReported = none :=
  ⟨rfl, rfl, rfl⟩

/-- C10: an empty system-prompt string is treated exactly as an absent
one: the request payload gets no `system` field, and both runners persist
the `system_prompt` record field as `None` rather than the empty string. -/
theorem C10_empty_system_prompt_omitted (model prompt : String) (temperature : Float)
    (max_tokens : Nat) (cfg : Config) (outcome : Nat → CallOutcome) (elapsed : Nat → Rat)
    (i : Nat) (q : Question) (hsp : cfg.system_prompt = "") :
    (buildPayload model prompt cfg.system_prompt temperature max_tokens).system = none
    ∧ (buildPayload model prompt "" temperature max_tokens).system = none
    ∧ (mkResultRecord cfg outcome elapsed i q).system_prompt = none
    ∧ (mkIterationRecord cfg outcome i q).system_prompt = none := by
  refine ⟨?_, ?_, ?_, ?_⟩ <;>
    simp [buildPayload, mkResultRecord, mkIterationRecord, hsp]

/-- C10 witness: a concrete invocation with the empty system prompt
produces a payload without `system` and records with a null
`system_prompt`. -/
theorem C10_empty_system_prompt_omitted_witness :
    (buildPayload "llama3.2" "p" "" 0.7 1000).system = none
    ∧ (mkResultRecord ⟨"llama3.2", 0.7, 1000, "", false, false, false⟩
        (fun _ => .connError) (fun _ => 0) 0 ⟨"a", "Q", "a.txt"⟩).system_prompt = none
    ∧ (mkIterationRecord ⟨"llama3.2", 0.7, 1000, "", false, false, false⟩
        (fun _ => .connError) 0 ⟨"a", "Q", "a.txt"⟩).system_prompt = none :=
  ⟨(C10_empty_system_prompt_omitted "llama3.2" "p" 0.7 1000
      ⟨"llama3.2", 0.7, 1000, "", false, false, false⟩ (fun _ => .connError) (fun _ => 0)
      0 ⟨"a", "Q", "a.txt"⟩ rfl).2.1,
   (C10_empty_system_prompt_omitted "llama3.2" "p" 0.7 1000
      ⟨"llama3.2", 0.7, 1000, "", false, false, false⟩ (fun _ => .connError) (fun _ => 0)
      0 ⟨"a", "Q", "a.txt"⟩ rfl).2.2.1,
   (C10_empty_system_prompt_omitted "llama3.2" "p" 0.7 1000
      ⟨"llama3.2", 0.7, 1000, "", false, false, false⟩ (fun _ => .connError) (fun _ => 0)
      0 ⟨"a", "Q", "a.txt"⟩ rfl).2.2.2⟩

/-- Characterization of a successful chained run. -/
theorem run_iterations_ok {cfg : Config} {listing : Option (List (String × String))}
    {outcome : Nat → CallOutcome} {run : ChainedRun}
    (h : run_iterations cfg listing outcome = .ok run) :
    ∃ qs, read_questions listing cfg.preproc cfg.strip_codeblocks cfg.strip_htmlFlag = .ok qs
      ∧ run.records = mapIdxFrom (mkIterationRecord cfg outcome) 0 qs
      ∧ run.filesWritten = run.records.map (fun r => r.question_id ++ "_result.json")
          ++ ["all_results.json"] := by
  simp only [run_iterations] at h
  cases hload : read_questions listing cfg.preproc cfg.strip_codeblocks cfg.strip_htmlFlag with
  | error e =>
      rw [hload] at h
      cases h
  | ok qs =>
      rw [hload] at h
      cases h
      exact ⟨qs, rfl, rfl, rfl⟩

/-- C1: in chained mode each Iteration Record's sequence starts with the
question text, has length six, and each element after the first is
exactly the Inference Client's completion for the immediately preceding
element as the prompt (five chained calls per question). -/
theorem C1_chained_sequence (cfg : Config) (listing : Option (List (String × String)))
    (outcome : Nat → CallOutcome) (run : ChainedRun) (qs : List Question)
    (i : Nat) (rec : IterationRecord) (q : Question)
    (hload : read_questions listing cfg.preproc cfg.strip_codeblocks cfg.strip_htmlFlag
      = .ok qs)
    (hrun : run_iterations cfg listing outcome = .ok run)
    (hq : qs[i]? = some q) (hrec : run.records[i]? = some rec) :
    rec.question_text = q.text
    ∧ rec.responses.length = 6
    ∧ rec.responses[0]? = some q.text
    ∧ (∀ k p, k < 5 → rec.responses[k]? = some p →
        rec.responses[k + 1]? = some (query_ollama cfg.model p cfg.system_prompt
          cfg.temperature cfg.max_tokens (outcome (5 * i + k)))) := by
  obtain ⟨qs', hload', hrecs, -⟩ := run_iterations_ok hrun
  rw [hload] at hload'
  cases hload'
  rw [hrecs, mapIdxFrom_getElem? (mkIterationRecord cfg outcome) 0 qs i, hq] at hrec
  simp only [Option.map_some', Option.some.injEq, Nat.zero_add] at hrec
  subst hrec
  refine ⟨rfl, ?_, ?_, ?_⟩
  · exact chainFrom_length (queryStep cfg outcome) (5 * i) q.text 5
  · exact chainFrom_head (queryStep cfg outcome) (5 * i) q.text 5
  · intro k p hk hp
    exact chainFrom_step_get (queryStep cfg outcome) 5 (5 * i) q.text k p hk hp

/-- C1 witness: a one-question run against a stub endpoint that always
answers `A` builds the sequence `[Q, A, A, A, A, A]`. -/
theorem C1_chained_sequence_witness :
    (mkIterationRecord ⟨"llama3.2", 0.7, 1000, "", false, false, false⟩
        (fun _ => CallOutcome.success "A") 0 ⟨"a", "Q", "a.txt"⟩).responses.length = 6
    ∧ (mkIterationRecord ⟨"llama3.2", 0.7, 1000, "", false, false, false⟩
        (fun _ => CallOutcome.success "A") 0 ⟨"a", "Q", "a.txt"⟩).responses[0]? = some "Q"
    ∧ (mkIterationRecord ⟨"llama3.2", 0.7, 1000, "", false, false, false⟩
        (fun _ => CallOutcome.success "A") 0 ⟨"a", "Q", "a.txt"⟩).responses[1]? =
        some (query_ollama "llama3.2" "Q" "" 0.7 1000 (CallOutcome.success "A")) := by
  have h := C1_chained_sequence ⟨"llama3.2", 0.7, 1000, "", false, false, false⟩
    (some [("a.txt", "Q")]) (fun _ => CallOutcome.success "A")
    { records := [mkIterationRecord ⟨"llama3.2", 0.7, 1000, "", false, false, false⟩
        (fun _ => CallOutcome.success "A") 0 ⟨"a", "Q", "a.txt"⟩],
      filesWritten := ["a_result.json", "all_results.json"] }
    [⟨"a", "Q", "a.txt"⟩] 0
    (mkIterationRecord ⟨"llama3.2", 0.7, 1000, "", false, false, false⟩
      (fun _ => CallOutcome.success "A") 0 ⟨"a", "Q", "a.txt"⟩)
    ⟨"a", "Q", "a.txt"⟩ rfl rfl rfl rfl
  exact ⟨h.2.1, h.2.2.1, h.2.2.2 0 "Q" (by omega) h.2.2.1⟩

/-- C5: if every inference call fails with a connection error, a
single-shot run over a successfully loaded (hence non-empty) question set
still produces exactly one record per question, each with the
connection-error string as its completion, writes one file per question
plus the aggregate, and the whole run completes without any error — in
particular the final average is computed over a non-zero record count. -/
theorem C5_all_connection_errors_run_completes (cfg : Config)
    (files : List (String × String)) (qs : List Question) (elapsed : Nat → Rat)
    (hload : read_question_files (some files) cfg.preproc cfg.strip_codeblocks
      cfg.strip_htmlFlag = .ok qs) :
    ∃ run : SingleRun,
      run_test cfg (some files) (fun _ => .connError) elapsed = .ok run
      ∧ run.records.length = qs.length
      ∧ (∀ r ∈ run.records, r.response =
          "Error: Could not connect to Ollama. Make sure Ollama is running.")
      ∧ run.filesWritten = qs.map (fun q => q.id ++ "_result.json") ++ ["all_results.json"]
      ∧ (mainSingleShot cfg (some files) (fun _ => .connError) elapsed).errorReported = none
      ∧ (mainSingleShot cfg (some files) (fun _ => .connError) elapsed).avgReported.isSome
          = true := by
  have hrt : run_test cfg (some files) (fun _ => .connError) elapsed =
      .ok { records := mapIdxFrom (mkResultRecord cfg (fun _ => .connError) elapsed) 0 qs,
            filesWritten := (mapIdxFrom (mkResultRecord cfg (fun _ => .connError) elapsed)
              0 qs).map (fun r => r.question_id ++ "_result.json")
              ++ ["all_results.json"] } := by
    simp only [run_test, hload]
  have hne := (read_question_files_ok hload).2
  have hlen : (mapIdxFrom (mkResultRecord cfg (fun _ => .connError) elapsed) 0 qs).length
      ≠ 0 := by
    rw [mapIdxFrom_length]
    exact fun h0 => hne (List.length_eq_zero.mp h0)
  have havg : singleAvg (mapIdxFrom (mkResultRecord cfg (fun _ => .connError) elapsed) 0 qs)
      = .ok (((mapIdxFrom (mkResultRecord cfg (fun _ => .connError) elapsed) 0 qs).map
          (fun r => r.processing_time_seconds)).sum /
        ((mapIdxFrom (mkResultRecord cfg (fun _ => .connError) elapsed) 0 qs).length : Rat))
      := by
    simp only [singleAvg, if_neg hlen]
  refine ⟨_, hrt, mapIdxFrom_length _ 0 qs, ?_, ?_, ?_, ?_⟩
  · show ∀ r ∈ mapIdxFrom (mkResultRecord cfg (fun _ => .connError) elapsed) 0 qs,
        r.response = "Error: Could not connect to Ollama. Make sure Ollama is running."
    exact @mapIdxFrom_forall Question ResultRecord
      (fun r => r.response = "Error: Could not connect to Ollama. Make sure Ollama is running.")
      (mkResultRecord cfg (fun _ => .connError) elapsed) (fun i a => rfl) 0 qs
  · show (mapIdxFrom (mkResultRecord cfg (fun _ => .connError) elapsed) 0 qs).map
        (fun r => r.question_id ++ "_result.json") ++ ["all_results.json"]
      = qs.map (fun q => q.id ++ "_result.json") ++ ["all_results.json"]
    rw [mapIdxFrom_map_indep (mkResultRecord cfg (fun _ => .connError) elapsed)
      (fun r => r.question_id ++ "_result.json") (fun q => q.id ++ "_result.json")
      (fun i a => rfl) 0 qs]
  · simp [mainSingleShot, hrt, havg]
  · simp [mainSingleShot, hrt, havg]

/-- C5 witness: a one-question run against an unreachable endpoint
completes without error and reports an average. -/
theorem C5_all_connection_errors_run_completes_witness :
    (mainSingleShot ⟨"llama3.2", 0.7, 1000, "", false, false, false⟩
        (some [("a.txt", "2+2=?")]) (fun _ => .connError) (fun _ => 1)).errorReported
      = none := by
  obtain ⟨run, -, -, -, -, herr, -⟩ :=
    C5_all_connection_errors_run_completes ⟨"llama3.2", 0.7, 1000, "", false, false, false⟩
      [("a.txt", "2+2=?")] [⟨"a", "2+2=?", "a.txt"⟩] (fun _ => 1) rfl
  exact herr

/-- C9: the chained runner's final summary line sums the last element of
each record's `responses` — completion strings, not times — starting from
the integer 0, so on every run whose load succeeds it raises
`TypeError: unsupported operand type(s) for +: 'int' and 'str'`; the
chained runner therefore never reports a numeric mean elapsed time. -/
theorem C9_chained_average_type_error (cfg : Config)
    (listing : Option (List (String × String))) (outcome : Nat → CallOutcome)
    (qs : List Question)
    (hload : read_questions listing cfg.preproc cfg.strip_codeblocks cfg.strip_htmlFlag
      = .ok qs) :
    (mainChained cfg listing outcome).avgReported = none
    ∧ (mainChained cfg listing outcome).errorReported =
        some (.typeError "unsupported operand type(s) for +: 'int' and 'str'")
    ∧ (mainChained cfg listing outcome).exitCode = 0 := by
  have hrun : run_iterations cfg listing outcome =
      .ok { records := mapIdxFrom (mkIterationRecord cfg outcome) 0 qs,
            filesWritten := (mapIdxFrom (mkIterationRecord cfg outcome) 0 qs).map
              (fun r => r.question_id ++ "_result.json") ++ ["all_results.json"] } := by
    simp only [run_iterations, hload]
  have hne : qs ≠ [] := by
    cases listing with
    | none => simp [read_questions] at hload
    | some files => exact (read_questions_ok hload).2
  obtain ⟨q₀, qrest, rfl⟩ : ∃ a l, qs = a :: l := by
    cases qs with
    | nil => exact absurd rfl hne
    | cons a l => exact ⟨a, l, rfl⟩
  have hresp : (mkIterationRecord cfg outcome 0 q₀).responses ≠ [] := by
    intro h0
    have hlen := chainFrom_length (queryStep cfg outcome) (5 * 0) q₀.text 5
    rw [show (mkIterationRecord cfg outcome 0 q₀).responses =
      chainFrom (queryStep cfg outcome) (5 * 0) q₀.text 5 from rfl] at h0
    rw [h0] at hlen
    simp at hlen
  obtain ⟨s₀, hs₀⟩ : ∃ s, (mkIterationRecord cfg outcome 0 q₀).responses.getLast? = some s
      := by
    cases hl : (mkIterationRecord cfg outcome 0 q₀).responses.getLast? with
    | none => exact absurd (List.getLast?_eq_none_iff.mp hl) hresp
    | some s => exact ⟨s, rfl⟩
  have hpl : pyLast (mkIterationRecord cfg outcome 0 q₀).responses = .ok s₀ := by
    simp [pyLast, hs₀]
  have hfold : (mapIdxFrom (mkIterationRecord cfg outcome) 0 (q₀ :: qrest)).foldlM
      (fun acc r => do pyAdd acc (.str (← pyLast r.responses))) (PyVal.int 0) =
      .error (.typeError "unsupported operand type(s) for +: 'int' and 'str'") := by
    rw [show mapIdxFrom (mkIterationRecord cfg outcome) 0 (q₀ :: qrest) =
      mkIterationRecord cfg outcome 0 q₀ ::
        mapIdxFrom (mkIterationRecord cfg outcome) 1 qrest from rfl]
    rw [List.foldlM_cons]
    rw [show ((do pyAdd (PyVal.int 0) (.str (← pyLast
        (mkIterationRecord cfg outcome 0 q₀).responses))) : Except PyExn PyVal) =
      pyLast (mkIterationRecord cfg outcome 0 q₀).responses >>= fun s =>
        pyAdd (PyVal.int 0) (.str s) from rfl]
    rw [hpl]
    rfl
  have havg : chainedAvg (mapIdxFrom (mkIterationRecord cfg outcome) 0 (q₀ :: qrest)) =
      .error (.typeError "unsupported operand type(s) for +: 'int' and 'str'") := by
    simp only [chainedAvg]
    rw [hfold]
    rfl
  refine ⟨?_, ?_, ?_⟩ <;> simp [mainChained, hrun, havg]

/-- C9 witness: a concrete one-question chained run reports the type
error instead of an average. -/
theorem C9_chained_average_type_error_witness :
    (mainChained ⟨"llama3.2", 0.7, 1000, "", false, false, false⟩
        (some [("a.txt", "Q")]) (fun _ => CallOutcome.success "A")).avgReported = none
    ∧ (mainChained ⟨"llama3.2", 0.7, 1000, "", false, false, false⟩
        (some [("a.txt", "Q")]) (fun _ => CallOutcome.success "A")).errorReported =
        some (.typeError "unsupported operand type(s) for +: 'int' and 'str'") := by
  have h := C9_chained_average_type_error ⟨"llama3.2", 0.7, 1000, "", false, false, false⟩
    (some [("a.txt", "Q")]) (fun _ => CallOutcome.success "A")
    [⟨"a", "Q", "a.txt"⟩] rfl
  exact ⟨h.1, h.2.1⟩

/-! Facts about the fence-stripping regex model. -/

theorem stripFencesGo_nil : ∀ fuel : Nat, stripFencesGo fuel [] = []
  | 0 => rfl
  | _ + 1 => rfl

theorem dropWhile_append_all {α : Type} (p : α → Bool) : ∀ (l r : List α),
    l.all p = true → (l ++ r).dropWhile p = r.dropWhile p
  | [], _, _ => rfl
  | a :: l, r, h => by
      rw [List.all_cons, Bool.and_eq_true] at h
      rw [List.cons_append, List.dropWhile_cons, if_pos h.1]
      exact dropWhile_append_all p l r h.2

/-- A body without backticks cannot form a premature closing fence, so the
lazy scan finds exactly the final `\n` plus triple backtick and consumes
everything. -/
theorem findClose_of_no_backtick : ∀ (body : List Char),
    body.all (fun c => !fenceMark.contains c) = true →
    findClose (body ++ nlChar :: fenceMark) = some [] := by
  intro body
  induction body with
  | nil => intro _; decide
  | cons c bs ih =>
      intro h
      rw [List.all_cons, Bool.and_eq_true] at h
      obtain ⟨hc, hbs⟩ := h
      show findClose (c :: (bs ++ nlChar :: fenceMark)) = some []
      have hcond : ((bs ++ nlChar :: fenceMark).take 3 = fenceMark) → False := by
        intro h3
        cases bs with
        | nil =>
            simp only [List.nil_append] at h3
            exact absurd h3 (by decide)
        | cons b bs' =>
            simp only [List.cons_append, List.take_succ_cons] at h3
            have hfm : fenceMark = fenceMark.headI :: fenceMark.tail := rfl
            rw [hfm] at h3
            injection h3 with h31 h32
            rw [List.all_cons, Bool.and_eq_true] at hbs
            have hb := hbs.1
            rw [h31] at hb
            exact absurd hb (by decide)
      have hfalse : ¬((c = nlChar && (bs ++ nlChar :: fenceMark).take 3 = fenceMark) = true)
          := by
        intro hcontr
        rw [Bool.and_eq_true] at hcontr
        exact hcond (of_decide_eq_true hcontr.2)
      simp only [findClose]
      rw [if_neg hfalse]
      exact ih hbs

/-- A well-formed fence — alphanumeric info string, newline, backtick-free
body, newline, closing fence — matches the regex in full. -/
theorem matchFence_wellformed (lang body : List Char)
    (hlang : lang.all isAlnumAscii = true)
    (hbody : body.all (fun c => !fenceMark.contains c) = true) :
    matchFence (fenceMark ++ (lang ++ (nlChar :: (body ++ (nlChar :: fenceMark)))))
      = some [] := by
  have htake : (fenceMark ++ (lang ++ (nlChar :: (body ++ (nlChar :: fenceMark))))).take 3
      = fenceMark := by
    rw [show (3 : Nat) = fenceMark.length from rfl, List.take_left]
  have hdrop : (fenceMark ++ (lang ++ (nlChar :: (body ++ (nlChar :: fenceMark))))).drop 3
      = lang ++ (nlChar :: (body ++ (nlChar :: fenceMark))) := by
    rw [show (3 : Nat) = fenceMark.length from rfl, List.drop_left]
  simp only [matchFence]
  rw [if_pos htake, hdrop]
  rw [dropWhile_append_all isAlnumAscii lang (nlChar :: (body ++ (nlChar :: fenceMark)))
    hlang]
  rw [List.dropWhile_cons, if_neg (by decide)]
  show (if nlChar = nlChar then findClose (body ++ (nlChar :: fenceMark)) else none)
    = some []
  rw [if_pos rfl]
  exact findClose_of_no_backtick body hbody

/-- When the whole input is one regex match, the substitution scan deletes
it entirely. -/
theorem stripFences_of_matchFence_empty {s : List Char} (h : matchFence s = some []) :
    stripFences s = [] := by
  cases s with
  | nil => exact absurd h (by decide)
  | cons c cs =>
      show stripFencesGo (c :: cs).length (c :: cs) = []
      rw [show (c :: cs).length = cs.length + 1 from rfl]
      simp only [stripFencesGo, h]
      exact stripFencesGo_nil cs.length

/-- C8 (amended): with code-block stripping enabled, a fenced block whose
opening fence carries a purely alphanumeric (possibly empty) info string
followed by a newline, whose body contains no backtick, and whose closing
fence is preceded by a newline is removed entirely — but fences with
non-alphanumeric info strings (for example a `c++` language tag) do not
match the regex and survive, so not every triple-backtick-delimited block
is absent from the output. -/
theorem C8_wellformed_fence_stripped (lang body : List Char) (sh : Bool)
    (hlang : lang.all isAlnumAscii = true)
    (hbody : body.all (fun c => !fenceMark.contains c) = true) :
    preprocess_markdown (fenceMark ++ (lang ++ (nlChar :: (body ++ (nlChar :: fenceMark)))))
      true sh = []
    ∧ hasFence (preprocess_markdown
        (fenceMark ++ (lang ++ (nlChar :: (body ++ (nlChar :: fenceMark))))) true sh)
      = false := by
  have hsf : stripFences (fenceMark ++ (lang ++ (nlChar :: (body ++ (nlChar :: fenceMark)))))
      = [] :=
    stripFences_of_matchFence_empty (matchFence_wellformed lang body hlang hbody)
  have h1 : stripIndented
      (stripFences (fenceMark ++ (lang ++ (nlChar :: (body ++ (nlChar :: fenceMark))))))
      = [] := by
    rw [hsf]
    rfl
  have hpre : preprocess_markdown
      (fenceMark ++ (lang ++ (nlChar :: (body ++ (nlChar :: fenceMark))))) true sh = [] := by
    cases sh <;> simp [preprocess_markdown, h1, stripHtmlTags, stripHtmlGo]
  exact ⟨hpre, by rw [hpre]; rfl⟩

/-- C8 witness: the fence with info string `py` and body `x = 1` is
removed completely. -/
theorem C8_wellformed_fence_stripped_witness :
    ("py".data.all isAlnumAscii = true)
    ∧ ("x = 1".data.all (fun c => !fenceMark.contains c) = true)
    ∧ preprocess_markdown (fenceMark ++ ("py".data ++ (nlChar :: ("x = 1".data
        ++ (nlChar :: fenceMark))))) true false = [] :=
  ⟨by decide, by decide,
   (C8_wellformed_fence_stripped "py".data "x = 1".data false (by decide) (by decide)).1⟩

/-- C8 counterexample: the fenced block with info string `c++` is left
untouched by preprocessing with code-block stripping enabled, so a
triple-backtick-delimited block is still present in the output. -/
theorem C8_nonalnum_fence_survives :
    preprocess_markdown "```c++\nx\n```".data true false = "```c++\nx\n```".data
    ∧ hasFence (preprocess_markdown "```c++\nx\n```".data true false) = true :=
  ⟨by decide, by decide⟩
